import Mathlib

/-!
Verification development for the `ahooks` pre-commit hook package.

The definitions below are shallow embeddings of the Python sources:
  * `src/ahooks/models/hookConfigBlock.py`, `repoConfigBlock.py`,
    `preCommitConfigYaml.py` — the hook/config registry and merge engine;
  * `src/ahooks/add_from_future.py` and `src/ahooks/utils/_file_utils.py` —
    the import-statement locator/inserter and the file writers;
  * `src/ahooks/hooks/allow_unused_required_imports.py` — the required-import
    annotator.
Optional Python values become `Option`, Python lists become `List`, raised
exceptions become `Except` errors, and in-place mutation becomes explicit
state passing.
-/

namespace AHooks

/-- Model of the attrs class `HookConfigBlock` (hookConfigBlock.py).
Optional fields default to `none`, mirroring the attrs defaults.  The
`_repo` / `_funcs` bookkeeping fields are modelled separately through
`registerHook` below, since they only carry the registration side effect. -/
structure HookConfigBlock where
  id : String
  name : Option String := none
  language : Option String := none
  entry : Option String := none
  args : Option (List String) := none
  pass_filenames : Option Bool := none
  files : Option String := none
  stages : Option (List String) := none
deriving Repr, DecidableEq

/-- Model of `HookConfigBlock.__eq__`: compares only the `id` field. -/
def hookEq (a b : HookConfigBlock) : Bool :=
  a.id == b.id

/-- Model of the attrs class `RepoConfigBlock` (repoConfigBlock.py). -/
structure RepoConfigBlock where
  repo : String
  hooks : List HookConfigBlock := []
deriving Repr, DecidableEq

/-- Model of `RepoConfigBlock.has_hook`: true iff a hook with the same id is
already in the hook list. -/
def hasHook (r : RepoConfigBlock) (hook : HookConfigBlock) : Bool :=
  r.hooks.any (fun h => h.id == hook.id)

/-- Model of `RepoConfigBlock.add_hook`: appends at the end, unless `guard`
is set and a hook with the same id is already present. -/
def addHook (r : RepoConfigBlock) (hook : HookConfigBlock) (guard : Bool) :
    RepoConfigBlock :=
  if guard && hasHook r hook then r
  else { r with hooks := r.hooks ++ [hook] }

/-- Model of `HookConfigBlock.__attrs_post_init__`, the registration step:
`self._repo.add_hook(self, guard=True)`. -/
def registerHook (r : RepoConfigBlock) (hook : HookConfigBlock) : RepoConfigBlock :=
  addHook r hook true

/-- Stable insertion by id, ascending.  A new element goes after every
element whose id is less than or equal to its own. -/
def insertByKey (h : HookConfigBlock) : List HookConfigBlock → List HookConfigBlock
  | [] => [h]
  | x :: xs => if x.id ≤ h.id then x :: insertByKey h xs else h :: x :: xs

/-- Model of Python `sorted(hooks, key=lambda h: h.id)`.  Python sorted is a
stable ascending sort by key; a stable insertion sort computes the same
function, so this is extensionally the source behaviour. -/
def sortHooksById : List HookConfigBlock → List HookConfigBlock
  | [] => []
  | x :: xs => insertByKey x (sortHooksById xs)

/-- Stable insertion on plain strings, mirroring `insertByKey` on the
projected keys. -/
def insertStr (s : String) : List String → List String
  | [] => [s]
  | x :: xs => if x ≤ s then x :: insertStr s xs else s :: x :: xs

/-- Stable insertion sort on plain strings, mirroring `sortHooksById` on the
projected keys. -/
def sortStr : List String → List String
  | [] => []
  | x :: xs => insertStr x (sortStr xs)

/-- Model of `RepoConfigBlock.__eq__`: equal lengths, then pairwise
`HookConfigBlock.__eq__` over both hook lists sorted by id.  The `repo`
name fields are not compared, as in the source. -/
def repoEq (a b : RepoConfigBlock) : Bool :=
  if a.hooks.length != b.hooks.length then false
  else ((sortHooksById a.hooks).zip (sortHooksById b.hooks)).all
    (fun p => hookEq p.1 p.2)

/-- Model of the result sentinels `FAILED_OP` / `FINISH_OP` from _types.py. -/
inductive OpSentinel
  | FAILED_OP
  | FINISH_OP
deriving Repr, DecidableEq

/-- Model of the attrs class `PreCommitConfigYaml` (preCommitConfigYaml.py). -/
structure PreCommitConfigYaml where
  repos : List RepoConfigBlock
  minimum_pre_commit_version : Option String := none
deriving Repr, DecidableEq

/-- Model of Python `str.lower()`: lowercases every character. -/
def pyLower (s : String) : String :=
  ⟨s.data.map Char.toLower⟩

/-- Model of Python `str.strip()` with no argument: removes leading and
trailing whitespace. -/
def pyStrip (s : String) : String :=
  ⟨((s.data.dropWhile Char.isWhitespace).reverse.dropWhile Char.isWhitespace).reverse⟩

/-- Model of `PreCommitConfigYaml._matches_name`: strips and lowercases the
name of the candidate destination block `r` only, and compares it with the
given `repo_name` verbatim. -/
def matchesName (repo_name : String) (r : RepoConfigBlock) : Bool :=
  pyLower (pyStrip r.repo) == repo_name

/-- The `next(n for n, r in enumerate(self.repos) if ...)` search in
`PreCommitConfigYaml.extend`: index of the first destination block whose
(normalized) name matches `repo_name`. -/
def locateIdx (y : PreCommitConfigYaml) (repo_name : String) : Option Nat :=
  y.repos.findIdx? (fun r => matchesName repo_name r)

/-- The for-loop of `PreCommitConfigYaml.extend`: given the ids of the
pre-existing hooks (computed once, before any append, exactly as
`exist_hook_ids` is in the source) returns the hooks appended in order and
the list of skipped duplicate ids in order. -/
def extendLoop (existIds : List String) :
    List HookConfigBlock → List HookConfigBlock × List String
  | [] => ([], [])
  | h :: hs =>
    let rest := extendLoop existIds hs
    if existIds.contains h.id then (rest.1, h.id :: rest.2)
    else (h :: rest.1, rest.2)

/-- Error raised by `self.repos[idx]` in `extend` when the index is out of
range (Python IndexError). -/
inductive ExtendErr
  | indexError
deriving Repr, DecidableEq

/-- Model of `PreCommitConfigYaml.extend`.  Returns the updated document,
the `OpSentinel` result, and the list of duplicate ids carried by the
`warnings.warn` message (empty list: no warning).  When no block matches,
the source falls back to `idx = max(len(self.repos) - 1, 0)`, i.e. the last
existing block; on an empty `repos` list the subsequent `self.repos[idx]`
raises IndexError, modelled as `Except.error`.  The final sentinel compares
the cardinality of the original id set with the length of the final hook
list, as in the source. -/
def extend (y : PreCommitConfigYaml) (repo_block : RepoConfigBlock) :
    Except ExtendErr (PreCommitConfigYaml × OpSentinel × List String) :=
  let repo_name := repo_block.repo
  let hooks := repo_block.hooks
  let idx : Nat :=
    match locateIdx y repo_name with
    | some n => n
    | none => max (y.repos.length - 1) 0
  match y.repos[idx]? with
  | none => .error .indexError
  | some rb =>
    let existIds := rb.hooks.map (fun h => h.id)
    let res := extendLoop existIds hooks
    let newHooks := rb.hooks ++ res.1
    let newRepos := y.repos.set idx { rb with hooks := newHooks }
    let sent :=
      if existIds.dedup.length == newHooks.length then OpSentinel.FAILED_OP
      else OpSentinel.FINISH_OP
    .ok ({ y with repos := newRepos }, sent, res.2)

/-- Convenience constructor: hook block with only the id set. -/
def mkHook (i : String) : HookConfigBlock :=
  { id := i }

end AHooks

namespace AddFromFuture

/-- One physical line of a module source file, as `add_from_future.py` sees
it: the text is split into newline-terminated lines, and the statements the
resolver inspects are one-line top-level statements.  `docstring` is a
one-line leading string literal, `importFrom` a `from M import ...` line
carrying the module path, `importStmt` an `import a, b` line, `stmt` any
other one-line statement. -/
inductive SrcLine
  | blank
  | docstring
  | importStmt (names : List String)
  | importFrom (module : String)
  | stmt (code : String)
deriving Repr, DecidableEq

/-- Kind of a top-level `ast` statement node. -/
inductive PyStmtKind
  | docstring
  | importStmt (names : List String)
  | importFrom (module : String)
  | other (code : String)
deriving Repr, DecidableEq

/-- A top-level statement with its 1-based `lineno` and inclusive
`end_lineno`, as exposed by `ast.parse`. -/
structure PyStmt where
  kind : PyStmtKind
  lineno : Nat
  end_lineno : Nat
deriving Repr, DecidableEq

/-- A parsed module: the ordered top-level statement body. -/
structure PyModule where
  body : List PyStmt
deriving Repr, DecidableEq

/-- Statement produced by one source line (blank lines produce none); `i` is
the 0-based line index, so the statement gets 1-based line numbers. -/
def lineToStmt (i : Nat) : SrcLine → Option PyStmt
  | .blank => none
  | .docstring => some ⟨.docstring, i + 1, i + 1⟩
  | .importStmt ns => some ⟨.importStmt ns, i + 1, i + 1⟩
  | .importFrom m => some ⟨.importFrom m, i + 1, i + 1⟩
  | .stmt c => some ⟨.other c, i + 1, i + 1⟩

/-- Model of `ast.parse` on the line-structured fragment above: top-level
one-line statements with 1-based line numbers. -/
def parseModule (ls : List SrcLine) : PyModule :=
  ⟨ls.enum.filterMap (fun p => lineToStmt p.1 p.2)⟩

/-- Truthiness of `ast.get_docstring(mod)`: the first body statement is a
string literal. -/
def hasDocstring (m : PyModule) : Bool :=
  match m.body with
  | s :: _ =>
    match s.kind with
    | .docstring => true
    | _ => false
  | [] => false

/-- Model of the `_NodeLoc` named tuple. -/
structure NodeLoc where
  idx : Nat
  lineno : Nat
deriving Repr, DecidableEq

/-- Outcome of the statement scan inside `find_insertion_point`. -/
inductive ScanResult
  | alreadyPresent
  | found (loc : NodeLoc)
  | noFromImport
deriving Repr, DecidableEq

/-- The for-loop of `find_insertion_point`: the first `ast.ImportFrom` node
decides the result.  `off` is `docstring_offset`; the pairs carry the body
index of each statement. -/
def scanBody (off : Nat) : List (Nat × PyStmt) → ScanResult
  | [] => .noFromImport
  | (idx, s) :: rest =>
    match s.kind with
    | .importFrom m =>
      if m == "__future__" then .alreadyPresent else .found ⟨idx, s.lineno + off⟩
    | _ => scanBody off rest

/-- Model of `find_insertion_point` (add_from_future.py): `none` is the
"already present" signal.  `docstring_offset` is `mod.body[0].end_lineno`
when a docstring exists, else 0 (the `getD 0` branch is unreachable since a
docstring forces a nonempty body). -/
def find_insertion_point (m : PyModule) : Option NodeLoc :=
  let off := if hasDocstring m then ((m.body.head?.map (fun s => s.end_lineno)).getD 0) else 0
  match scanBody off m.body.enum with
  | .alreadyPresent => none
  | .found loc => some loc
  | .noFromImport => some ⟨if hasDocstring m then 1 else 0, off⟩

/-- Python `list.insert(n, x)`: insertion at position `n`, clamped to the
list length. -/
def insertLines (ls : List SrcLine) (n : Nat) (ins : List SrcLine) : List SrcLine :=
  ls.take n ++ ins ++ ls.drop n

/-- Text effect of `_rewrite_file_with_future`: the inserted string is
`"\nFROM_FUTURE\n"` when `loc.idx != 0` (lines: blank, then the future
statement) and `"FROM_FUTURE\n\n"` otherwise (lines: future statement,
then blank); it is inserted into `splitlines(keepends=True)` at position
`loc.lineno`. -/
def rewrite_with_future (src : List SrcLine) (loc : NodeLoc) : List SrcLine :=
  let ins :=
    if loc.idx ≠ 0 then [SrcLine.blank, SrcLine.importFrom "__future__"]
    else [SrcLine.importFrom "__future__", SrcLine.blank]
  insertLines src loc.lineno ins

/-- Model of `_add_statement`: parse, resolve the insertion point, and
rewrite; `none` means the file is left untouched. -/
def add_statement (src : List SrcLine) : Option (List SrcLine) :=
  match find_insertion_point (parseModule src) with
  | none => none
  | some loc => some (rewrite_with_future src loc)

/-- A filesystem action, for stating which write pattern a routine uses:
`openTrunc p` opens `p` with mode `w`, truncating it; the write actions
record content; `rename src dst` renames `src` over `dst`. -/
inductive FsOp
  | openTrunc (path : String)
  | writeStr (path : String) (content : String)
  | writeLines (path : String) (lines : List SrcLine)
  | rename (src : String) (dst : String)
deriving Repr, DecidableEq

/-- Filesystem trace of `_rewrite_file_with_future`: `path.open("w")`
followed by `file.writelines(lines)` — a direct in-place write of the
target. -/
def rewrite_file_trace (src : List SrcLine) (path : String) (loc : NodeLoc) :
    List FsOp :=
  [.openTrunc path, .writeLines path (rewrite_with_future src loc)]

/-- Filesystem trace of `write_atomic` (_file_utils.py): the temporary file
is `path.with_suffix(path.suffix + ".tmp")`, i.e. the target path with
`".tmp"` appended; it is opened, written, and renamed over the target. -/
def write_atomic_trace (path : String) (content : String) : List FsOp :=
  [.openTrunc (path ++ ".tmp"), .writeStr (path ++ ".tmp") content,
   .rename (path ++ ".tmp") path]

/-- Decides whether a trace is a "write the complete content to a temporary
file, then rename it over the target" sequence for the given target. -/
def isAtomicWriteTrace (target : String) : List FsOp → Bool
  | [.openTrunc t₁, .writeStr t₂ _, .rename t₃ dst] =>
    t₁ == t₂ && t₂ == t₃ && dst == target && !(t₁ == target)
  | [.openTrunc t₁, .writeLines t₂ _, .rename t₃ dst] =>
    t₁ == t₂ && t₂ == t₃ && dst == target && !(t₁ == target)
  | _ => false

/-- Whether a single action mutates the bytes reachable under `target`. -/
def mutatesPath (target : String) : FsOp → Bool
  | .openTrunc p => p == target
  | .writeStr p _ => p == target
  | .writeLines p _ => p == target
  | .rename _ dst => dst == target

end AddFromFuture

namespace Annotator

/-- The sentinel comment text `_WHITELIST_COMMENT`. -/
def WHITELIST_COMMENT : String := "# noqa: F401"

/-- The `module` attribute of a `libcst.ImportFrom` node: a simple name, a
dotted attribute path, or absent (relative import `from . import x`). -/
inductive ModuleRef
  | name (s : String)
  | dotted (parts : List String)
deriving Repr, DecidableEq

/-- A small statement inside a `SimpleStatementLine`. -/
inductive SmallStmt
  | importStmt (names : List String)
  | importFrom (module : Option ModuleRef)
  | other
deriving Repr, DecidableEq

/-- The trailing-whitespace slot of a statement line: an optional trailing
comment text. -/
structure Trailing where
  comment : Option String
deriving Repr, DecidableEq

/-- A `libcst.SimpleStatementLine`: small statements plus the trailing
whitespace.  A module is a list of such lines; parent links from a small
statement reach its enclosing line. -/
structure StmtLine where
  body : List SmallStmt
  trailing : Trailing
deriving Repr, DecidableEq

/-- Whether the first character list starts the second one. -/
def charsStartWith : List Char → List Char → Bool
  | [], _ => true
  | _ :: _, [] => false
  | a :: as, b :: bs => a == b && charsStartWith as bs

/-- Whether the first character list occurs contiguously in the second. -/
def charsHaveSub (pat : List Char) : List Char → Bool
  | [] => charsStartWith pat []
  | b :: bs => charsStartWith pat (b :: bs) || charsHaveSub pat bs

/-- Substring containment, modelling the Python `in` operator on strings. -/
def containsSub (s pat : String) : Bool :=
  charsHaveSub pat.data s.data

/-- Model of `_is_missing_whitelist_comment`: true when there is no
trailing-whitespace object, no comment, or the comment does not contain
the whitelist marker. -/
def is_missing_whitelist_comment (trailing : Option Trailing) : Bool :=
  match trailing with
  | none => true
  | some tw =>
    match tw.comment with
    | none => true
    | some c => !(containsSub c WHITELIST_COMMENT)

/-- Model of `_import_needs_whitelist`: some imported name is required and
the marker is absent. -/
def import_needs_whitelist (names : List String) (trailing : Option Trailing)
    (required : List String) : Bool :=
  names.any (fun n => required.contains n) && is_missing_whitelist_comment trailing

/-- Model of `_importFrom_needs_whitelist`: only a plain-`Name` module path
can match; dotted and relative paths never do. -/
def importFrom_needs_whitelist (module : Option ModuleRef)
    (trailing : Option Trailing) (required : List String) : Bool :=
  match module with
  | some (.name m) => required.contains m && is_missing_whitelist_comment trailing
  | _ => false

/-- Python runtime error raised while the hook runs. -/
inductive PyError
  | nameError (missing : String)
deriving Repr, DecidableEq

/-- The module `allow_unused_required_imports.py` defines no module-level
binding named `get_meta` (only the method `_AppendWhiteListComment.get_meta`
exists); the bare name `get_meta` used inside `_register_import` and
`_register_importFrom` therefore does not resolve.  The absent binding is
modelled explicitly: `none` here makes those functions raise `NameError`
exactly where CPython does. -/
def moduleLevel_get_meta : Option Unit := none

/-- Model of `_register_import`: when the import needs the whitelist
comment, the source evaluates `_line_of(node, get_meta)` with the
module-level name `get_meta`; since that binding is absent this raises
`NameError`.  Otherwise nothing is registered.  `lineIdx` identifies the
enclosing statement line (standing in for `id(line)`). -/
def register_import (names : List String) (trailing : Option Trailing)
    (required : List String) (lineIdx : Nat) : Except PyError (Option Nat) :=
  if import_needs_whitelist names trailing required then
    match moduleLevel_get_meta with
    | none => .error (.nameError "get_meta")
    | some _ => .ok (some lineIdx)
  else .ok none

/-- Model of `_register_importFrom`, with the same absent `get_meta`
binding. -/
def register_importFrom (module : Option ModuleRef) (trailing : Option Trailing)
    (required : List String) (lineIdx : Nat) : Except PyError (Option Nat) :=
  if importFrom_needs_whitelist module trailing required then
    match moduleLevel_get_meta with
    | none => .error (.nameError "get_meta")
    | some _ => .ok (some lineIdx)
  else .ok none

/-- State of the `_AppendWhiteListComment` transformer: the `changed` flag
(initialized to `False` and never assigned anywhere in the source) and the
registry of line identities collected by `register_line`. -/
structure TransformerState where
  changed : Bool
  lineRegistry : List Nat
deriving Repr, DecidableEq

/-- Visit of one small statement: `visit_Import` / `visit_ImportFrom`
dispatch to the register helpers; a returned line identity is added to the
registry (`set.add`). -/
def visitSmall (required : List String) (lineIdx : Nat) (trailing : Option Trailing)
    (st : TransformerState) : SmallStmt → Except PyError TransformerState
  | .importStmt names => do
    let reg ← register_import names trailing required lineIdx
    match reg with
    | some i =>
      .ok { st with lineRegistry := if st.lineRegistry.contains i then st.lineRegistry else st.lineRegistry ++ [i] }
    | none => .ok st
  | .importFrom m => do
    let reg ← register_importFrom m trailing required lineIdx
    match reg with
    | some i =>
      .ok { st with lineRegistry := if st.lineRegistry.contains i then st.lineRegistry else st.lineRegistry ++ [i] }
    | none => .ok st
  | .other => .ok st

/-- Visit of the small statements of one line.  The transformer computes a
trailing-whitespace lookup through parent metadata (`self.get_trailing`);
in this model the enclosing line of each small statement is known
structurally, so the lookup returns the trailing slot of that line. -/
def visitLineBody (required : List String) (lineIdx : Nat) (trailing : Trailing)
    (st : TransformerState) : List SmallStmt → Except PyError TransformerState
  | [] => .ok st
  | s :: rest => do
    let st' ← visitSmall required lineIdx (some trailing) st s
    visitLineBody required lineIdx trailing st' rest

/-- The visit phase of the transformer over the whole module, numbering the
lines from `startIdx`. -/
def visitModule (required : List String) (startIdx : Nat)
    (st : TransformerState) : List StmtLine → Except PyError TransformerState
  | [] => .ok st
  | line :: rest => do
    let st' ← visitLineBody required startIdx line.trailing st line.body
    visitModule required (startIdx + 1) st' rest

/-- Model of `_with_updated_trailing`: replace the trailing comment with a
single-space-prefixed whitelist marker. -/
def with_updated_trailing (line : StmtLine) : StmtLine :=
  { line with trailing := ⟨some (" " ++ WHITELIST_COMMENT)⟩ }

/-- Model of `leave_SimpleStatementLine`: rewrite registered lines only. -/
def leaveLine (registry : List Nat) (lineIdx : Nat) (line : StmtLine) : StmtLine :=
  if registry.contains lineIdx then with_updated_trailing line else line

/-- Model of `_add_comments`: run the transformer over the module and return
the new module together with `transformer.changed` (a field the source
never assigns after initializing it to `False`). -/
def add_comments (m : List StmtLine) (required : List String) :
    Except PyError (List StmtLine × Bool) := do
  let st ← visitModule required 0 ⟨false, []⟩ m
  .ok (m.enum.map (fun p => leaveLine st.lineRegistry p.1 p.2), st.changed)

end Annotator

namespace AHooks

/-- Helper: list containment agrees with membership for strings. -/
theorem contains_eq_true_iff (l : List String) (a : String) :
    l.contains a = true ↔ a ∈ l := by
  simp [List.contains, List.elem_iff]

/-- Helper: the extend loop splits the source hooks into the appended ones
(those whose id is not already present) and the skipped duplicate ids, both
in source order. -/
theorem extendLoop_eq_filter (ids : List String) (hs : List HookConfigBlock) :
    extendLoop ids hs =
      (hs.filter (fun h => !(ids.contains h.id)),
        (hs.filter (fun h => ids.contains h.id)).map (fun h => h.id)) := by
  induction hs with
  | nil => rfl
  | cons h t ih =>
    by_cases hc : h.id ∈ ids
    · simp [extendLoop, ih, hc, List.filter_cons]
    · simp [extendLoop, ih, hc, List.filter_cons]

/-- C9: calling the merge engine on a document whose repo-group list is
empty does not append the source group as a new group; the no-match
fallback index `max(len(repos) - 1, 0)` points into the empty list and the
operation fails with an index-out-of-range error. -/
theorem extend_on_empty_repos_index_error (g : RepoConfigBlock) (v : Option String) :
    extend ⟨[], v⟩ g = .error .indexError := rfl

/-- C4 (code bug): when no destination group matches the source group name,
`extend` does not append the source as a new trailing group; it merges the
source hooks into the last existing group and reports `FINISH_OP`.  Here
the document has a single group named `other`, the source group is named
`local`, and the hook `a` ends up inside `other`. -/
theorem extend_no_match_merges_into_last_group :
    extend ⟨[⟨"other", [mkHook "x"]⟩], none⟩ ⟨"local", [mkHook "a"]⟩ =
      .ok (⟨[⟨"other", [mkHook "x", mkHook "a"]⟩], none⟩, .FINISH_OP, []) := rfl

/-- C3: merging a source group into a document whose located destination
group has duplicate-free hook ids appends exactly the source hooks whose id
is not already present, in order, leaves the group duplicate-free, and the
warning names exactly the skipped duplicate ids. -/
theorem extend_dedupes_matched_group
    (y : PreCommitConfigYaml) (g : RepoConfigBlock) (i : Nat) (rb : RepoConfigBlock)
    (hfind : locateIdx y g.repo = some i)
    (hget : y.repos[i]? = some rb)
    (hS : (rb.hooks.map (fun h => h.id)).Nodup)
    (hG : (g.hooks.map (fun h => h.id)).Nodup) :
    ∃ sent : OpSentinel,
      extend y g = .ok
        ({ y with
            repos :=
              y.repos.set i
                ({ rb with
                    hooks := rb.hooks ++ g.hooks.filter
                      (fun h => !((rb.hooks.map (fun h' => h'.id)).contains h.id)) }) },
          sent,
          (g.hooks.filter
              (fun h => (rb.hooks.map (fun h' => h'.id)).contains h.id)).map
            (fun h => h.id))
        ∧ ((rb.hooks ++ g.hooks.filter
              (fun h => !((rb.hooks.map (fun h' => h'.id)).contains h.id))).map
            (fun h => h.id)).Nodup := by
  refine ⟨if ((rb.hooks.map (fun h => h.id)).dedup.length ==
      (rb.hooks ++ g.hooks.filter
        (fun h => !((rb.hooks.map (fun h' => h'.id)).contains h.id))).length)
    then OpSentinel.FAILED_OP else OpSentinel.FINISH_OP, ?_, ?_⟩
  · simp only [extend, locateIdx] at hfind ⊢
    rw [hfind, hget]
    simp only [extendLoop_eq_filter]
  · rw [List.map_append]
    refine List.Nodup.append hS
      (List.Nodup.sublist (List.Sublist.map _ (List.filter_sublist _)) hG) ?_
    intro a ha hb
    rcases List.mem_map.1 hb with ⟨h, hmem, rfl⟩
    have hcond := (List.mem_filter.1 hmem).2
    have hmemids : (rb.hooks.map (fun h' => h'.id)).contains h.id = true :=
      (contains_eq_true_iff _ _).2 ha
    rw [hmemids] at hcond
    simp at hcond

/-- Witness for C3 at a concrete input: destination group `local` with hook
id `a`, source group `local` with hooks `a` (different name field) and `b`;
only `b` is appended and the warning names `a`. -/
theorem extend_dedupes_matched_group_witness :
    ∃ sent : OpSentinel,
      extend ⟨[⟨"local", [mkHook "a"]⟩], none⟩
          ⟨"local", [⟨"a", some "n", none, none, none, none, none, none⟩, mkHook "b"]⟩ =
        .ok (⟨[⟨"local", [mkHook "a", mkHook "b"]⟩], none⟩, sent, ["a"])
      ∧ (["a", "b"] : List String).Nodup :=
  extend_dedupes_matched_group ⟨[⟨"local", [mkHook "a"]⟩], none⟩
    ⟨"local", [⟨"a", some "n", none, none, none, none, none, none⟩, mkHook "b"]⟩ 0
    ⟨"local", [mkHook "a"]⟩ (by decide) (by decide) (by decide) (by decide)

end AHooks

namespace AHooks

/-- C7 counterexample: the claimed two-sided normalization fails.  A source
group named `Local` does not match a destination group named `local`, even
though the two names are equal after stripping and lowercasing both sides:
`_matches_name` normalizes only the destination name. -/
theorem matchesName_not_normalized_both_sides :
    matchesName "Local" ⟨"local", []⟩ = false
    ∧ pyLower (pyStrip "Local") = pyLower (pyStrip "local") := by
  exact ⟨by decide, by decide⟩

/-- C7 amended: group-name matching normalizes only the destination side.
Whenever some destination group name, stripped and lowercased, equals the
source name verbatim, the merge engine locates a destination group. -/
theorem locateIdx_finds_normalized_dest (y : PreCommitConfigYaml) (g : RepoConfigBlock)
    (h : ∃ r ∈ y.repos, pyLower (pyStrip r.repo) = g.repo) :
    (locateIdx y g.repo).isSome = true := by
  rw [locateIdx, List.findIdx?_isSome]
  rcases h with ⟨r, hr, he⟩
  exact List.any_eq_true.2 ⟨r, hr, by simp [matchesName, he]⟩

/-- Witness for C7 amended: a source named `local` locates the destination
group named ` Local `. -/
theorem locateIdx_finds_normalized_dest_witness :
    (locateIdx ⟨[⟨" Local ", []⟩], none⟩ "local").isSome = true :=
  locateIdx_finds_normalized_dest ⟨[⟨" Local ", []⟩], none⟩ ⟨"local", []⟩
    ⟨⟨" Local ", []⟩, by decide, by decide⟩

/-- C8: registration is idempotent per id.  Registering a hook whose id is
already registered leaves the registry unchanged (a silent no-op, no
error), while registering a hook with a fresh id appends it at the end,
preserving registration order. -/
theorem registerHook_idempotent_per_id (r : RepoConfigBlock) (h : HookConfigBlock) :
    ((∃ g ∈ r.hooks, g.id = h.id) → registerHook r h = r)
    ∧ ((∀ g ∈ r.hooks, g.id ≠ h.id) → (registerHook r h).hooks = r.hooks ++ [h]) := by
  constructor
  · rintro ⟨g, hg, hid⟩
    have hh : hasHook r h = true := List.any_eq_true.2 ⟨g, hg, by simp [hid]⟩
    simp [registerHook, addHook, hh]
  · intro hall
    have hh : hasHook r h = false := by
      rw [hasHook, List.any_eq_false]
      intro g hg
      simp [hall g hg]
    simp [registerHook, addHook, hh]

/-- Witness for C8: re-registering id `a` (with a different name field) is
a no-op; registering the fresh id `b` appends at the end. -/
theorem registerHook_idempotent_per_id_witness :
    registerHook ⟨"local", [mkHook "a"]⟩ ⟨"a", some "n", none, none, none, none, none, none⟩ =
      ⟨"local", [mkHook "a"]⟩
    ∧ (registerHook ⟨"local", [mkHook "a"]⟩ (mkHook "b")).hooks = [mkHook "a"] ++ [mkHook "b"] :=
  ⟨(registerHook_idempotent_per_id ⟨"local", [mkHook "a"]⟩
      ⟨"a", some "n", none, none, none, none, none, none⟩).1 ⟨mkHook "a", by decide, by decide⟩,
    (registerHook_idempotent_per_id ⟨"local", [mkHook "a"]⟩ (mkHook "b")).2 (by decide)⟩

/-- Helper: projecting ids commutes with the keyed insertion. -/
theorem map_insertByKey (h : HookConfigBlock) (l : List HookConfigBlock) :
    (insertByKey h l).map (fun x => x.id) = insertStr h.id (l.map (fun x => x.id)) := by
  induction l with
  | nil => rfl
  | cons x xs ih =>
    by_cases hle : x.id ≤ h.id
    · simp [insertByKey, insertStr, hle, ih]
    · simp [insertByKey, insertStr, hle]

/-- Helper: projecting ids commutes with the keyed sort. -/
theorem map_sortHooksById (l : List HookConfigBlock) :
    (sortHooksById l).map (fun x => x.id) = sortStr (l.map (fun x => x.id)) := by
  induction l with
  | nil => rfl
  | cons x xs ih => simp [sortHooksById, sortStr, map_insertByKey, ih]

/-- Helper: two hook lists with identical id sequences are pairwise equal
under `HookConfigBlock.__eq__`. -/
theorem zip_all_hookEq (xs : List HookConfigBlock) :
    ∀ ys : List HookConfigBlock,
      xs.map (fun x => x.id) = ys.map (fun x => x.id) →
      ((xs.zip ys).all (fun p => hookEq p.1 p.2)) = true := by
  induction xs with
  | nil => intro ys h; simp
  | cons x xt ih =>
    intro ys h
    cases ys with
    | nil => simp at h
    | cons y yt =>
      simp only [List.map_cons, List.cons.injEq] at h
      simp only [List.zip_cons_cons, List.all_cons]
      rw [ih yt h.2]
      simp [hookEq, h.1]

/-- C10: hook equality is determined by id alone — two hook blocks with the
same id compare equal whatever their other fields are; duplicate detection
(`has_hook`) depends only on the probed id; and group structural equality
(`RepoConfigBlock.__eq__`) holds for any two groups whose hook lists carry
the same id sequence, whatever their names and other hook fields. -/
theorem hook_equality_is_id_only :
    (∀ (i : String) (n₁ l₁ e₁ a₁ p₁ f₁ s₁ n₂ l₂ e₂ a₂ p₂ f₂ s₂),
      hookEq ⟨i, n₁, l₁, e₁, a₁, p₁, f₁, s₁⟩ ⟨i, n₂, l₂, e₂, a₂, p₂, f₂, s₂⟩ = true)
    ∧ (∀ (r : RepoConfigBlock) (a b : HookConfigBlock),
      a.id = b.id → hasHook r a = hasHook r b)
    ∧ (∀ (a b : RepoConfigBlock),
      a.hooks.map (fun x => x.id) = b.hooks.map (fun x => x.id) → repoEq a b = true) := by
  refine ⟨?_, ?_, ?_⟩
  · intro i n₁ l₁ e₁ a₁ p₁ f₁ s₁ n₂ l₂ e₂ a₂ p₂ f₂ s₂
    simp [hookEq]
  · intro r a b hab
    simp [hasHook, hab]
  · intro a b h
    have hlen : a.hooks.length = b.hooks.length := by
      have := congrArg List.length h
      simpa using this
    have hsorted : (sortHooksById a.hooks).map (fun x => x.id) =
        (sortHooksById b.hooks).map (fun x => x.id) := by
      rw [map_sortHooksById, map_sortHooksById, h]
    simp [repoEq, hlen, zip_all_hookEq _ _ hsorted]

/-- Witness for C10: id-equal hooks with different optional fields compare
equal; `has_hook` agrees on two id-equal probes; two groups with different
names and different hook name fields but the same id sequence compare
equal. -/
theorem hook_equality_is_id_only_witness :
    hookEq ⟨"a", some "x", none, none, none, none, none, none⟩
        ⟨"a", none, some "python", none, none, none, none, none⟩ = true
    ∧ hasHook ⟨"local", [mkHook "a"]⟩ ⟨"a", some "x", none, none, none, none, none, none⟩ =
        hasHook ⟨"local", [mkHook "a"]⟩ (mkHook "a")
    ∧ repoEq ⟨"r1", [⟨"b", some "x", none, none, none, none, none, none⟩, mkHook "a"]⟩
        ⟨"r2", [mkHook "b", mkHook "a"]⟩ = true :=
  ⟨hook_equality_is_id_only.1 "a" (some "x") none none none none none none
      none (some "python") none none none none none,
    hook_equality_is_id_only.2.1 ⟨"local", [mkHook "a"]⟩
      ⟨"a", some "x", none, none, none, none, none, none⟩ (mkHook "a") (by decide),
    hook_equality_is_id_only.2.2
      ⟨"r1", [⟨"b", some "x", none, none, none, none, none, none⟩, mkHook "a"]⟩
      ⟨"r2", [mkHook "b", mkHook "a"]⟩ (by decide)⟩

end AHooks

namespace AddFromFuture

/-- C1 (code bug): the insertion pipeline is not idempotent.  On the module
`from os import path` (one from-import, no docstring) the resolver answers
index 0, line 1, and the rewriter splices the future import at list
position 1 — after the from-import.  Resolving the rewritten text finds the
`os` from-import first and again returns a location instead of the
"already present" signal `none`, so a second run would insert again. -/
theorem add_from_future_not_idempotent :
    add_statement [SrcLine.importFrom "os"] =
      some [SrcLine.importFrom "os", SrcLine.importFrom "__future__", SrcLine.blank]
    ∧ find_insertion_point (parseModule
        [SrcLine.importFrom "os", SrcLine.importFrom "__future__", SrcLine.blank]) =
      some ⟨0, 1⟩ := by
  exact ⟨rfl, rfl⟩

/-- C6 (code bug): with a leading docstring, the resolver reports the first
from-import at body index 1 with spliced line 3 (statement line 2 plus
docstring end line 1), and the rewriter then places the inserted future
statement at the very end of the file — after the from-import, not
immediately before it. -/
theorem insertion_lands_after_first_from_import :
    find_insertion_point (parseModule [SrcLine.docstring, SrcLine.importFrom "os"]) =
      some ⟨1, 3⟩
    ∧ add_statement [SrcLine.docstring, SrcLine.importFrom "os"] =
      some [SrcLine.docstring, SrcLine.importFrom "os", SrcLine.blank,
        SrcLine.importFrom "__future__"] := by
  exact ⟨rfl, rfl⟩

/-- C5 counterexample: the Rewriter as implemented does not perform a
write-to-temporary-then-rename sequence.  At a concrete input its
filesystem trace fails the atomic-write shape for the target file. -/
theorem rewriter_trace_not_atomic :
    isAtomicWriteTrace "mod.py"
      (rewrite_file_trace [SrcLine.importFrom "os"] "mod.py" ⟨0, 1⟩) = false := rfl

/-- Helper: appending a nonempty suffix changes a string, so the temporary
file used by `write_atomic` is never the target itself. -/
theorem append_tmp_beq_false (p : String) : ((p ++ ".tmp") == p) = false := by
  have hne : p ++ ".tmp" ≠ p := by
    intro h
    have hl := congrArg String.length h
    rw [String.length_append] at hl
    have h4 : (".tmp").length = 4 := rfl
    rw [h4] at hl
    omega
  exact beq_eq_false_iff_ne.2 hne

/-- C5 amended: the import Rewriter `_rewrite_file_with_future` writes the
target directly in place — its very first filesystem action already
mutates the target, and its trace never has the temporary-then-rename
shape — whereas the separate `write_atomic` helper (used by the annotator
driver, not by the Rewriter) does write a temporary file and rename it
over the target, touching the target only with its final rename. -/
theorem rewriter_in_place_write_atomic_renames
    (src : List SrcLine) (path : String) (loc : NodeLoc) (content : String) :
    ((rewrite_file_trace src path loc).head?.map (mutatesPath path) = some true)
    ∧ isAtomicWriteTrace path (rewrite_file_trace src path loc) = false
    ∧ isAtomicWriteTrace path (write_atomic_trace path content) = true
    ∧ (write_atomic_trace path content).dropLast.all
        (fun op => !(mutatesPath path op)) = true := by
  refine ⟨?_, rfl, ?_, ?_⟩
  · simp [rewrite_file_trace, mutatesPath]
  · simp [isAtomicWriteTrace, write_atomic_trace, append_tmp_beq_false]
  · simp [write_atomic_trace, mutatesPath, append_tmp_beq_false]

end AddFromFuture

namespace Annotator

/-- C2 (code bug): annotating the module `import os` against the required
set `{os}` does not apply the marker — the matcher fires, the register
helper evaluates the unresolvable module-level name `get_meta`, and the
run aborts with `NameError`.  Moreover, on an input whose line already
carries the marker (the no-error path) the transformer reports
`changed = false` — the `changed` flag is never assigned anywhere, so no
successful run can ever report that a change occurred. -/
theorem annotate_import_os_raises_name_error :
    add_comments [⟨[SmallStmt.importStmt ["os"]], ⟨none⟩⟩] ["os"] =
      .error (.nameError "get_meta")
    ∧ add_comments [⟨[SmallStmt.importStmt ["os"]], ⟨some " # noqa: F401"⟩⟩] ["os"] =
      .ok ([⟨[SmallStmt.importStmt ["os"]], ⟨some " # noqa: F401"⟩⟩], false) := by
  exact ⟨rfl, rfl⟩

end Annotator
